import Mathlib

/-!
# Verification of the Oracle FastAPI proxy (`proxy.py`)

Shallow embedding of the request-forwarding gateway in `proxy.py`:
the forwarding helper `make_oracle_request`, the two FastAPI exception
handlers, the health-check handler and the summary-statistics handler.

Modelling conventions:

* JSON values are the inductive `Json` below; `Json.num` carries a rational,
  which covers both Python ints and the floats that occur here exactly.
  A `Json.obj` models an already-parsed Python dict, so its keys are
  assumed distinct; field lookup returns the first (hence only) binding.
* The outbound call `requests.request(...)` together with `response.json()`
  is abstracted by `UpstreamOutcome`: either an HTTP response with a status
  code and an optional parsed JSON body (`none` meaning the body is not
  valid JSON, so `response.json()` raises), or one of the transport faults
  distinguished by the `except` arms of `make_oracle_request`.
  A `requests.exceptions.ConnectTimeout`, being a subclass of both
  `Timeout` and `ConnectionError`, is caught by the `Timeout` arm first,
  so it is modelled as `UpstreamOutcome.timeout`.
* In the `requests` library (since version 2.27, and the repository pins no
  older version) `response.json()` on a non-JSON body raises
  `requests.exceptions.JSONDecodeError`, a subclass of
  `requests.exceptions.RequestException` but of neither
  `requests.exceptions.Timeout` nor `requests.exceptions.ConnectionError`.
  Hence a parse failure at `return response.json()` is caught by the final
  `except requests.exceptions.RequestException` arm: it logs
  `Request error: ...` and raises `HTTPException(500, "Internal server error")`.
  The text of the decode-error message depends on the raw body; it is
  modelled by the fixed constant `jsonDecodeMsg`, on whose exact contents no
  theorem depends.
* Raising `fastapi.HTTPException` is modelled with `Except`; FastAPI
  dispatching an exception escaping a route handler to the two registered
  exception handlers (lines 175-188 of the source) is `runHandler`, and a
  handler returning a dict normally yields HTTP 200 with that dict as body.
-/

set_option linter.unusedVariables false

namespace OracleProxy

/-- A parsed JSON value (Python object produced by `response.json()`). -/
inductive Json where
  | null
  | bool (b : Bool)
  | num (q : ℚ)
  | str (s : String)
  | arr (elems : List Json)
  | obj (fields : List (String × Json))


/-- First binding of `key` in the field list of a parsed dict
(keys of a Python dict are distinct, so the first binding is the only one). -/
def lookupField : List (String × Json) → String → Option Json
  | [], _ => none
  | (k, v) :: rest, key => if k = key then some v else lookupField rest key

/-- `fastapi.HTTPException`: a status code plus a `detail` payload. -/
structure HTTPExc where
  status_code : Nat
  detail : Json


/-- Outcome of the outbound `requests.request(...)` call, as distinguished by
the branches of `make_oracle_request`.  In `response`, `body = none` means the
body is not valid JSON, so any call to `response.json()` raises
`requests.exceptions.JSONDecodeError`. -/
inductive UpstreamOutcome where
  | response (status : Nat) (body : Option Json)
  | timeout
  | connectionError
  | requestException (msg : String)


/-- Fixed upstream base URL (`ORACLE_URL` in the source). -/
def ORACLE_URL : String :=
  "https://gp8wf9ag.adb.me-jeddah-1.oraclecloud.com/ords/petrolube_staging/table1_11/"

/-- The log line `logger.info(f"{method} {url} - Status: {response.status_code}")`. -/
def statusLog (method url : String) (status : Nat) : String :=
  method ++ " " ++ url ++ " - Status: " ++ toString status

/-- Stand-in for the body-dependent message of a
`requests.exceptions.JSONDecodeError`; no theorem depends on its text. -/
def jsonDecodeMsg : String :=
  "Expecting value: line 1 column 1 (char 0)"

/-- Lines 62-67 of the source: on a status other than 200/201/404 the gateway
runs `error_data = response.json()` and
`error_message = error_data.get("message", f"Oracle API error: {status}")`
inside `try ... except:`.  If the body is not JSON, `response.json()` raises
and the bare `except` yields `f"Oracle API returned status {status}"`; if the
parsed value is not a dict, `.get` raises `AttributeError`, likewise caught by
the bare `except`; if it is a dict, `.get` returns the stored `message` value
when the key is present and the default string otherwise. -/
def oracleErrorDetail (status : Nat) (body : Option Json) : Json :=
  match body with
  | some (.obj fields) =>
    match lookupField fields "message" with
    | some v => v
    | none => .str ("Oracle API error: " ++ toString status)
  | some _ => .str ("Oracle API returned status " ++ toString status)
  | none => .str ("Oracle API returned status " ++ toString status)

/-- `make_oracle_request` (lines 33-77): result of forwarding one request,
paired with the list of log lines emitted during the call, in order.
Transport faults raised by `requests.request` itself occur before the
`logger.info` line, so the `timeout` and `connectionError` arms log nothing
and the `RequestException` arm logs only `logger.error(f"Request error: ...")`.
A 200/201 response whose body fails JSON parsing has already logged the
status line when `response.json()` raises, and the raised
`JSONDecodeError` is then caught by the `RequestException` arm (see the
module docstring), adding the `Request error:` line. -/
def make_oracle_request (method url : String) (outcome : UpstreamOutcome) :
    Except HTTPExc Json × List String :=
  match outcome with
  | .response status body =>
    if status = 200 then
      match body with
      | some j => (.ok j, [statusLog method url status])
      | none => (.error ⟨500, .str "Internal server error"⟩,
                 [statusLog method url status, "Request error: " ++ jsonDecodeMsg])
    else if status = 201 then
      match body with
      | some j => (.ok (.obj [("success", .bool true), ("data", j)]),
                   [statusLog method url status])
      | none => (.error ⟨500, .str "Internal server error"⟩,
                 [statusLog method url status, "Request error: " ++ jsonDecodeMsg])
    else if status = 404 then
      (.error ⟨404, .str "Record not found"⟩, [statusLog method url status])
    else
      (.error ⟨status, oracleErrorDetail status body⟩, [statusLog method url status])
  | .timeout => (.error ⟨504, .str "Oracle database timeout"⟩, [])
  | .connectionError => (.error ⟨503, .str "Cannot connect to Oracle database"⟩, [])
  | .requestException msg =>
    (.error ⟨500, .str "Internal server error"⟩, ["Request error: " ++ msg])

/-- An exception escaping a route handler: either a `fastapi.HTTPException`
or any other Python exception, carried as its `str(e)` message. -/
inductive PyError where
  | http (e : HTTPExc)
  | other (msg : String)


/-- The HTTP response the proxy sends back to its client. -/
structure ClientResponse where
  status_code : Nat
  body : Json


/-- FastAPI dispatch around a route handler (lines 175-188): a dict returned
normally becomes an HTTP 200 response; an `HTTPException` is rendered by
`http_exception_handler` as `{"error": detail, "status_code": code}` with the
status of the exception; any other exception is rendered by
`general_exception_handler` as
`{"error": "Internal server error", "details": str(exc)}` with status 500. -/
def runHandler : Except PyError Json → ClientResponse
  | .ok j => ⟨200, j⟩
  | .error (.http e) =>
    ⟨e.status_code, .obj [("error", e.detail), ("status_code", .num e.status_code)]⟩
  | .error (.other msg) =>
    ⟨500, .obj [("error", .str "Internal server error"), ("details", .str msg)]⟩

/-- A plain forwarding route (`read_data`, `create_data`, `read_record`,
`update_data`, `delete_data`, lines 96-133): each calls
`make_oracle_request` with its verb and URL, returns its dict on success
and otherwise lets the raised `HTTPException` reach the exception handlers. -/
def forwardRoute (method url : String) (outcome : UpstreamOutcome) : ClientResponse :=
  runHandler ((make_oracle_request method url outcome).1.mapError PyError.http)

/-- `health_check` (lines 80-93).  `oracleResult` abstracts the guarded
`requests.get(ORACLE_URL, timeout=10)`: `some s` is a response with status
`s`, `none` means the call threw (any exception, per the bare `except`).
`timeResult` abstracts the unguarded
`requests.get("http://worldtimeapi.org/...").json()["datetime"]` in the
return expression: `.ok t` is the fetched time string, `.error msg` a raised
exception with message `msg`, which nothing in the handler catches. -/
def health_check (oracleResult : Option Nat) (timeResult : Except String String) :
    Except PyError Json :=
  let oracle_status : String :=
    match oracleResult with
    | some s => if s = 200 then "connected" else "error"
    | none => "disconnected"
  match timeResult with
  | .error msg => .error (.other msg)
  | .ok t => .ok (.obj [("status", .str "healthy"),
                        ("oracle_connection", .str oracle_status),
                        ("timestamp", .str t)])

/-! ## Summary statistics (`get_summary_stats`, lines 136-172)

The whole handler body runs inside `try ... except Exception as e`; any raised
exception `e` (including an `HTTPException` from the upstream call, a failing
`float(...)` coercion, a `.get` on a non-dict item, an unhashable dict key, or
the worldtimeapi call in the success dict) is caught and turned into the
degraded response, returned normally, hence with HTTP 200.  Python exception
messages that never surface in a claim are modelled by fixed constants. -/

/-- Digits to the natural number they denote, most significant first. -/
def digitsToNat (cs : List Char) : Nat :=
  cs.foldl (fun n c => n * 10 + (c.toNat - 48)) 0

/-- A non-empty all-digit run, or failure. -/
def parseDigits (cs : List Char) : Option Nat :=
  if cs.isEmpty then none
  else if cs.all Char.isDigit then some (digitsToNat cs)
  else none

/-- Strip one optional leading sign; `true` means negative. -/
def splitSign : List Char → Bool × List Char
  | '-' :: rest => (true, rest)
  | '+' :: rest => (false, rest)
  | cs => (false, cs)

/-- Unsigned decimal mantissa: `digits`, `digits.digits`, `digits.` or
`.digits` (at least one digit overall). -/
def parseUnsignedDecimal (cs : List Char) : Option ℚ :=
  match cs.splitOn '.' with
  | [w] => (parseDigits w).map (fun n => (n : ℚ))
  | [i, f] =>
    if i.isEmpty && f.isEmpty then none
    else if i.all Char.isDigit && f.all Char.isDigit then
      some ((digitsToNat i : ℚ) + (digitsToNat f : ℚ) / (10 : ℚ) ^ f.length)
    else none
  | _ => none

/-- Strip leading and trailing whitespace from a character list
(the whitespace stripping performed by the Python builtin `float`). -/
def stripChars (cs : List Char) : List Char :=
  ((cs.dropWhile Char.isWhitespace).reverse.dropWhile Char.isWhitespace).reverse

/-- The Python builtin `float(s)` on a string, modelled exactly on plain
decimal literals with optional sign, fractional part and exponent, after
stripping surrounding whitespace.  The special forms `inf`/`nan`, embedded
underscores and hexadecimal floats are not modelled and map to failure; no
theorem exercises them. -/
def parsePyFloat (s : String) : Option ℚ :=
  let cs := (stripChars s.toList).map Char.toLower
  let (neg, cs) := splitSign cs
  let signed : ℚ → ℚ := fun q => if neg then -q else q
  match cs.splitOn 'e' with
  | [m] => (parseUnsignedDecimal m).map signed
  | [m, e] => do
    let q ← parseUnsignedDecimal m
    let (eneg, ecs) := splitSign e
    let n ← parseDigits ecs
    pure (signed (q * (10 : ℚ) ^ (if eneg then -(n : ℤ) else (n : ℤ))))
  | _ => none

/-- The Python builtin `float(v)` on a parsed JSON value: numbers are
returned as-is, strings are parsed, booleans count as 0/1 (`bool` is an
`int` in Python), and every other value raises (`none`). -/
def pyFloat : Json → Option ℚ
  | .num q => some q
  | .str s => parsePyFloat s
  | .bool b => some (if b then 1 else 0)
  | _ => none

/-- Message constant for an `AttributeError` raised by `.get` on a non-dict. -/
def attributeErrorMsg : String := "AttributeError: get"

/-- Message constant for the `ValueError`/`TypeError` raised by a failing
`float(...)` coercion. -/
def valueErrorMsg : String := "ValueError: could not convert to float"

/-- Message constant for the `TypeError` raised when a non-list `items` value
makes the aggregation fail.  (Python would accept some non-list iterables
here; every theorem below restricts to a list-shaped or absent `items`, so
only the list and absent cases of this model are ever relied on.) -/
def typeErrorNotListMsg : String := "TypeError: items is not a list"

/-- Message constant for the `TypeError` raised by using an unhashable value
(a list or a dict) as a dict key. -/
def typeErrorUnhashableMsg : String := "TypeError: unhashable type"

/-- `r.get(key, dflt)` on a parsed value `r`: returns the stored value (or the
default) when `r` is a dict and raises `AttributeError` otherwise. -/
def dictGetD (r : Json) (key : String) (dflt : Json) : Except String Json :=
  match r with
  | .obj fields => .ok ((lookupField fields key).getD dflt)
  | _ => .error attributeErrorMsg

/-- The Python comparison `v == "Pending"` on a parsed JSON value `v`. -/
def isPending : Json → Bool
  | .str s => s == "Pending"
  | _ => false

/-- Python truthiness of a parsed JSON value (`if product:`). -/
def truthy : Json → Bool
  | .null => false
  | .bool b => b
  | .num q => !(q == 0)
  | .str s => !(s == "")
  | .arr elems => !elems.isEmpty
  | .obj fields => !fields.isEmpty

/-- Whether a parsed JSON value may be used as a Python dict key
(lists and dicts are unhashable). -/
def hashable : Json → Bool
  | .arr _ => false
  | .obj _ => false
  | _ => true

/-- Canonical form of a hashable dict key: Python has `True == 1` and
`False == 0` with equal hashes, so booleans collapse into numbers. -/
def canonKey : Json → Json
  | .bool b => .num (if b then 1 else 0)
  | j => j

/-- Equality of canonical scalar keys (only hashable values ever reach a
dict key position, and `canonKey` has removed booleans). -/
def scalarEq : Json → Json → Bool
  | .null, .null => true
  | .num p, .num q => decide (p = q)
  | .str s, .str t => decide (s = t)
  | _, _ => false

/-- Python `==`/hash equivalence of two dict keys. -/
def keyEq (a b : Json) : Bool :=
  scalarEq (canonKey a) (canonKey b)

/-- `products[product] = products.get(product, 0) + 1` on the insertion-ordered
association list modelling the `products` dict: a dict update keeps the
first-inserted key object and its position. -/
def bump : List (Json × Nat) → Json → List (Json × Nat)
  | [], k => [(k, 1)]
  | (q, n) :: rest, k =>
    if keyEq q k then (q, n + 1) :: rest else (q, n) :: bump rest k

/-- `r.get("status")` inside the pending-orders comprehension (line 145). -/
def itemStatus (r : Json) : Except String Json :=
  dictGetD r "status" .null

/-- `float(r.get("total_amount", 0))` inside the revenue sum (line 146). -/
def itemAmount (r : Json) : Except String ℚ := do
  let v ← dictGetD r "total_amount" (.num 0)
  match pyFloat v with
  | some q => .ok q
  | none => .error valueErrorMsg

/-- One iteration of the products loop (lines 150-153). -/
def productStep (ps : List (Json × Nat)) (r : Json) : Except String (List (Json × Nat)) := do
  let product ← dictGetD r "product_name" .null
  if truthy product then
    if hashable product then .ok (bump ps product)
    else .error typeErrorUnhashableMsg
  else .ok ps

/-- The whole products loop (lines 149-153), building the insertion-ordered
`products` dict. -/
def buildProducts (records : List Json) : Except String (List (Json × Nat)) :=
  records.foldlM productStep []

/-- One step of Python `max` with `key=lambda x: x[1]`: the running maximum is
replaced only on a strictly greater key, so the first maximal element wins. -/
def maxStep (m x : Json × Nat) : Json × Nat :=
  if m.2 < x.2 then x else m

/-- Python `max(xs, key=lambda x: x[1])` over the items of the products dict,
`none` on the empty list (where Python would raise, but the source guards
with `if products else "None"`). -/
def pyMaxBySnd : List (Json × Nat) → Option (Json × Nat)
  | [] => none
  | x :: rest => some (rest.foldl maxStep x)

/-- Line 155: `max(products.items(), key=lambda x: x[1])[0] if products else "None"`. -/
def top_product_of (products : List (Json × Nat)) : Json :=
  match pyMaxBySnd products with
  | some kv => kv.1
  | none => .str "None"

/-- Python `str(...)` of a parsed JSON value.  Only the string branch is exact
(and only it is relied on by any theorem); the remaining branches are
placeholders for values whose Python rendering is irrelevant here. -/
def pyStr : Json → String
  | .str s => s
  | .null => "None"
  | .bool b => if b then "True" else "False"
  | .num q => if q.den = 1 then toString q.num else toString q
  | .arr _ => "<list>"
  | .obj _ => "<dict>"

/-- `str(e)` of a `fastapi.HTTPException`, which Starlette renders as
`f"{status_code}: {detail}"`. -/
def strOfHTTPExc (e : HTTPExc) : String :=
  toString e.status_code ++ ": " ++ pyStr e.detail

/-- The `try` block of `get_summary_stats` (lines 139-163): any `.error` is an
exception reaching the `except Exception` clause, carried as its message. -/
def get_summary_stats_try (outcome : UpstreamOutcome) (timeResult : Except String String) :
    Except String Json := do
  let data ← match (make_oracle_request "GET" ORACLE_URL outcome).1 with
    | .ok j => Except.ok j
    | .error e => Except.error (strOfHTTPExc e)
  let itemsVal ← dictGetD data "items" (.arr [])
  let records ← match itemsVal with
    | .arr xs => Except.ok xs
    | _ => Except.error typeErrorNotListMsg
  let statuses ← records.mapM itemStatus
  let pending_orders := (statuses.filter isPending).length
  let amounts ← records.mapM itemAmount
  let total_revenue : ℚ := amounts.foldl (· + ·) 0
  let products ← buildProducts records
  let top_product := top_product_of products
  let t ← timeResult
  Except.ok (.obj [
    ("total_records", .num (records.length : ℚ)),
    ("pending_orders", .num (pending_orders : ℚ)),
    ("total_revenue", .num total_revenue),
    ("top_product", top_product),
    ("last_updated", .str t)])

/-- The degraded response of the `except Exception` clause (lines 166-172). -/
def degradedStats (msg : String) : Json :=
  .obj [("total_records", .num 0), ("pending_orders", .num 0),
        ("total_revenue", .num 0), ("top_product", .str "Error"),
        ("error", .str msg)]

/-- `get_summary_stats` (lines 136-172): the `try` block with every exception
caught and replaced by the degraded dict, returned normally. -/
def get_summary_stats (outcome : UpstreamOutcome) (timeResult : Except String String) :
    Except PyError Json :=
  match get_summary_stats_try outcome timeResult with
  | .ok j => .ok j
  | .error msg => .ok (degradedStats msg)

/-! ## Spec-side definitions

These follow the wording of the specification and claims (not the source);
the theorems below compare the source-derived functions against them. -/

/-- Whether a parsed JSON value is a dict. -/
def isObj : Json → Bool
  | .obj _ => true
  | _ => false

/-- Spec wording: the `status` field of an item, absent when missing. -/
def statusOf (r : Json) : Option Json :=
  match r with
  | .obj fields => lookupField fields "status"
  | _ => none

/-- Spec wording: an item whose `status` equals `"Pending"`
(items with missing status excluded). -/
def claimIsPendingItem (r : Json) : Bool :=
  match statusOf r with
  | some (.str s) => s == "Pending"
  | _ => false

/-- Spec wording: the count of items whose `status` equals `"Pending"`. -/
def claimPending (items : List Json) : Nat :=
  items.countP claimIsPendingItem

/-- Spec wording: an item's `total_amount` coerced to a number, a missing
field counting as 0; `none` when the coercion (or the field access) fails. -/
def amountOf (r : Json) : Option ℚ :=
  match r with
  | .obj fields => pyFloat ((lookupField fields "total_amount").getD (.num 0))
  | _ => none

/-- Spec wording: the sum of the coerced `total_amount` values. -/
def claimRevenue (items : List Json) : Option ℚ :=
  (items.mapM amountOf).map (fun qs => qs.foldl (· + ·) 0)

/-- Spec wording: the `product_name` field of an item, absent when missing. -/
def productOf (r : Json) : Option Json :=
  match r with
  | .obj fields => lookupField fields "product_name"
  | _ => none

/-- Spec wording: the non-empty (truthy) `product_name` values of the items,
in item order. -/
def truthyProducts (items : List Json) : List Json :=
  items.filterMap (fun r =>
    match productOf r with
    | some p => if truthy p then some p else none
    | none => none)

/-- One step of `dedupKeys`: append a value unless an equal one is present. -/
def dedupStep (acc : List Json) (p : Json) : List Json :=
  if acc.any (fun q => keyEq q p) then acc else acc ++ [p]

/-- The distinct values of a list, each kept at its first occurrence,
in first-occurrence order. -/
def dedupKeys (ps : List Json) : List Json :=
  ps.foldl dedupStep []

/-- Occurrence count of value `v` in the list `ps`. -/
def countKey (ps : List Json) (v : Json) : Nat :=
  ps.countP (fun q => keyEq q v)

/-- Spec wording: among the occurring values `ps`, the value with the highest
occurrence count, ties broken in favour of the first-occurring value;
`"None"` when the list is empty. -/
def specTopOf (ps : List Json) : Json :=
  let keys := dedupKeys ps
  let maxCount := (keys.map (countKey ps)).foldl max 0
  match keys.find? (fun v => countKey ps v == maxCount) with
  | some v => v
  | none => .str "None"

/-- Spec wording for `top_product`: among the non-empty `product_name` values,
the value with the highest occurrence count, ties broken in favour of the
value occurring first in the items list; the literal `"None"` when no item
has a non-empty product name. -/
def specTopProduct (items : List Json) : Json :=
  specTopOf (truthyProducts items)

/-- A truthy `product_name` value must be hashable for the products dict
update not to raise. -/
def productOK (r : Json) : Bool :=
  match productOf r with
  | some p => !truthy p || hashable p
  | none => true

/-- Side conditions under which the aggregation of `get_summary_stats`
completes without an exception: every item is a dict, every `total_amount`
coerces to a number, and every truthy `product_name` is hashable. -/
def statsWF (items : List Json) : Bool :=
  items.all isObj && (items.mapM amountOf).isSome && items.all productOK

/-- Running maximum of the second components, seeded with `m`
(proof-side companion of `pyMaxBySnd`). -/
def sndMax (xs : List (Json × Nat)) (m : Nat) : Nat :=
  xs.foldl (fun a y => max a y.2) m

/-- A named field of the body of a client response, when that body is a dict. -/
def bodyField (resp : ClientResponse) (key : String) : Option Json :=
  match resp.body with
  | .obj fields => lookupField fields key
  | _ => none

/-- The success dict of `health_check` with a given connection status and
timestamp. -/
def healthBody (conn t : String) : Json :=
  .obj [("status", .str "healthy"),
        ("oracle_connection", .str conn),
        ("timestamp", .str t)]

/-- The concrete items list named in the specification example. -/
def specExampleItems : List Json :=
  [.obj [("status", .str "Pending"), ("total_amount", .str "10.5"),
         ("product_name", .str "A")],
   .obj [("status", .str "Done"), ("total_amount", .str "5"),
         ("product_name", .str "A")],
   .obj [("product_name", .str "B")]]

/-! ## Claims

The arithmetic of `ℚ` is unsealed so that concrete rational computations
(the revenue sums of the examples) reduce definitionally. -/

unseal Rat.add Rat.mul Rat.inv Rat.ofScientific Rat.sub

/-- C1: for every HTTP verb, a 200 upstream response is relayed with the
upstream JSON body verbatim, and a 201 upstream response is relayed as
the object with `success = true` and `data` set to the upstream body. -/
theorem c1_relay_200_201 (method url : String) (j : Json) :
    (make_oracle_request method url (.response 200 (some j))).1 = .ok j ∧
    (make_oracle_request method url (.response 201 (some j))).1 =
      .ok (.obj [("success", .bool true), ("data", j)]) ∧
    forwardRoute method url (.response 200 (some j)) = ⟨200, j⟩ ∧
    forwardRoute method url (.response 201 (some j)) =
      ⟨200, .obj [("success", .bool true), ("data", j)]⟩ := by
  exact ⟨rfl, rfl, rfl, rfl⟩

/-- C2: for every HTTP verb, a 404 upstream response makes the gateway answer
its client with HTTP status 404 and exactly the envelope
`{"error": "Record not found", "status_code": 404}`. -/
theorem c2_not_found_envelope (method url : String) (body : Option Json) :
    forwardRoute method url (.response 404 body) =
      ⟨404, .obj [("error", .str "Record not found"),
                  ("status_code", .num 404)]⟩ := by
  rfl

/-- C4: for every verb and URL, a transport fault is mapped by kind: a timeout
fails with 504 and message `Oracle database timeout`, a connection failure
with 503 and message `Cannot connect to Oracle database`, and any other
transport fault with 500 and message `Internal server error`. -/
theorem c4_transport_faults (method url msg : String) :
    (make_oracle_request method url .timeout).1 =
      .error ⟨504, .str "Oracle database timeout"⟩ ∧
    (make_oracle_request method url .connectionError).1 =
      .error ⟨503, .str "Cannot connect to Oracle database"⟩ ∧
    (make_oracle_request method url (.requestException msg)).1 =
      .error ⟨500, .str "Internal server error"⟩ := by
  exact ⟨rfl, rfl, rfl⟩

/-- C3, counterexample to the claim as stated: on status 500 with the body
`[]`, which parses as JSON and contains no `message` field, the claim
predicts the message `Oracle API error: 500`, but the code raises
`AttributeError` inside the inner `try` when calling `.get` on a list, so the
bare `except` yields `Oracle API returned status 500`. -/
theorem c3_counterexample :
    (make_oracle_request "GET" ORACLE_URL (.response 500 (some (.arr [])))).1 =
      .error ⟨500, .str "Oracle API returned status 500"⟩ ∧
    Json.str "Oracle API returned status 500" ≠ Json.str "Oracle API error: 500" := by
  refine ⟨rfl, fun h => ?_⟩
  injection h with h
  exact absurd h (by decide)

/-- C3, amended: for a status other than 200, 201 and 404, the forwarding
operation fails with the upstream status and a message determined by: if
the body parses as a JSON dict containing a `message` field, that message
verbatim; if it parses as a JSON dict without the field, `Oracle API error:
{status}`; if JSON parsing throws, or the parsed value is not a dict (so the
`.get` call throws), `Oracle API returned status {status}`. -/
theorem c3_error_detail (method url : String) (status : Nat)
    (h200 : status ≠ 200) (h201 : status ≠ 201) (h404 : status ≠ 404) :
    (∀ fields msg, lookupField fields "message" = some msg →
      (make_oracle_request method url (.response status (some (.obj fields)))).1 =
        .error ⟨status, msg⟩) ∧
    (∀ fields, lookupField fields "message" = none →
      (make_oracle_request method url (.response status (some (.obj fields)))).1 =
        .error ⟨status, .str ("Oracle API error: " ++ toString status)⟩) ∧
    (∀ j, (∀ fields, j ≠ .obj fields) →
      (make_oracle_request method url (.response status (some j))).1 =
        .error ⟨status, .str ("Oracle API returned status " ++ toString status)⟩) ∧
    (make_oracle_request method url (.response status none)).1 =
      .error ⟨status, .str ("Oracle API returned status " ++ toString status)⟩ := by
  refine ⟨?_, ?_, ?_, ?_⟩
  · intro fields msg h
    simp [make_oracle_request, h200, h201, h404, oracleErrorDetail, h]
  · intro fields h
    simp [make_oracle_request, h200, h201, h404, oracleErrorDetail, h]
  · intro j hj
    cases j with
    | obj fields => exact absurd rfl (hj fields)
    | null => simp [make_oracle_request, h200, h201, h404, oracleErrorDetail]
    | bool b => simp [make_oracle_request, h200, h201, h404, oracleErrorDetail]
    | num q => simp [make_oracle_request, h200, h201, h404, oracleErrorDetail]
    | str s => simp [make_oracle_request, h200, h201, h404, oracleErrorDetail]
    | arr elems => simp [make_oracle_request, h200, h201, h404, oracleErrorDetail]
  · simp [make_oracle_request, h200, h201, h404, oracleErrorDetail]

/-- C3, witness: the amended theorem applied at status 503 with the body
`{"message": "db down"}` and at the body `{}`. -/
theorem c3_error_detail_witness :
    (make_oracle_request "GET" ORACLE_URL
        (.response 503 (some (.obj [("message", .str "db down")])))).1 =
      .error ⟨503, .str "db down"⟩ ∧
    (make_oracle_request "GET" ORACLE_URL (.response 503 (some (.obj [])))).1 =
      .error ⟨503, .str ("Oracle API error: " ++ toString 503)⟩ := by
  constructor
  · exact (c3_error_detail "GET" ORACLE_URL 503 (by decide) (by decide) (by decide)).1
      [("message", .str "db down")] (.str "db down") rfl
  · exact (c3_error_detail "GET" ORACLE_URL 503 (by decide) (by decide) (by decide)).2.1
      [] rfl

/-- C10, counterexample to the claim as stated: on a 200 upstream response
whose body is not JSON, the client receives the normalized envelope
`{"error": "Internal server error", "status_code": 500}` (the raised
`requests.exceptions.JSONDecodeError` is a `RequestException` and is caught
by the final `except` arm), not a catch-all envelope with a `details` field. -/
theorem c10_counterexample :
    forwardRoute "GET" ORACLE_URL (.response 200 none) =
      ⟨500, .obj [("error", .str "Internal server error"),
                  ("status_code", .num 500)]⟩ ∧
    bodyField (forwardRoute "GET" ORACLE_URL (.response 200 none)) "details" = none ∧
    bodyField (forwardRoute "GET" ORACLE_URL (.response 200 none)) "status_code" =
      some (.num 500) := by
  exact ⟨rfl, rfl, rfl⟩

/-- C10, amended: for every verb, a 200 upstream response with a non-JSON body
makes `response.json()` raise a `requests.exceptions.JSONDecodeError`, which
is caught by the `RequestException` arm, so the forwarding operation fails
with 500 and message `Internal server error` and the client receives the
normalized envelope `{"error": "Internal server error", "status_code": 500}`
with HTTP status 500. -/
theorem c10_nonjson_200 (method url : String) :
    (make_oracle_request method url (.response 200 none)).1 =
      .error ⟨500, .str "Internal server error"⟩ ∧
    forwardRoute method url (.response 200 none) =
      ⟨500, .obj [("error", .str "Internal server error"),
                  ("status_code", .num 500)]⟩ := by
  exact ⟨rfl, rfl⟩

/-- C9, counterexample to the claim as stated: an invocation that ends in a
timeout emits no log line at all (the exception is raised before the
`logger.info` call), not exactly one. -/
theorem c9_counterexample :
    (make_oracle_request "GET" ORACLE_URL .timeout).2 = [] ∧
    (make_oracle_request "GET" ORACLE_URL .timeout).2.length ≠ 1 := by
  exact ⟨rfl, by decide⟩

/-- C9, amended: an invocation that receives an upstream HTTP response logs
first the line with the method, the URL and the status code (one further
line is logged by the fault arm when a 200/201 body fails JSON parsing);
an invocation ending in a timeout or connection failure logs nothing; an
invocation ending in any other transport fault logs exactly one line with
the fault message (and without the method or URL). -/
theorem c9_logging (method url : String) :
    (∀ status body,
      (make_oracle_request method url (.response status body)).2.head? =
        some (statusLog method url status) ∧
      (make_oracle_request method url (.response status body)).2.length =
        (match body with
         | none => if status = 200 ∨ status = 201 then 2 else 1
         | some _ => 1)) ∧
    (make_oracle_request method url .timeout).2 = [] ∧
    (make_oracle_request method url .connectionError).2 = [] ∧
    (∀ msg, (make_oracle_request method url (.requestException msg)).2 =
      ["Request error: " ++ msg]) := by
  refine ⟨?_, rfl, rfl, fun msg => rfl⟩
  intro status body
  by_cases h200 : status = 200
  · subst h200
    cases body <;> simp [make_oracle_request]
  · by_cases h201 : status = 201
    · subst h201
      cases body <;> simp [make_oracle_request, h200]
    · by_cases h404 : status = 404
      · subst h404
        cases body <;> simp [make_oracle_request, h200, h201]
      · cases body <;> simp [make_oracle_request, h200, h201, h404]

/-- C8: the health check reports `connected` exactly when the guarded upstream
GET returns status 200, `error` for any other status and `disconnected` when
that call throws; a failure of the unguarded third-party time lookup is not
caught, escapes the handler, and is rendered by the catch-all exception
handler. -/
theorem c8_health_check (oracleResult : Option Nat) (timeResult : Except String String) :
    (∀ t, timeResult = .ok t →
      (oracleResult = some 200 →
        health_check oracleResult timeResult = .ok (healthBody "connected" t)) ∧
      (∀ s, oracleResult = some s → s ≠ 200 →
        health_check oracleResult timeResult = .ok (healthBody "error" t)) ∧
      (oracleResult = none →
        health_check oracleResult timeResult = .ok (healthBody "disconnected" t))) ∧
    (∀ msg, timeResult = .error msg →
      health_check oracleResult timeResult = .error (.other msg) ∧
      runHandler (health_check oracleResult timeResult) =
        ⟨500, .obj [("error", .str "Internal server error"),
                    ("details", .str msg)]⟩) := by
  constructor
  · intro t ht
    subst ht
    refine ⟨fun ho => ?_, fun s hs hne => ?_, fun ho => ?_⟩
    · subst ho; rfl
    · subst hs; simp [health_check, healthBody, hne]
    · subst ho; rfl
  · intro msg hm
    subst hm
    exact ⟨rfl, rfl⟩

/-- C8, witness: the health-check theorem applied at a 200 upstream status
with a successful time lookup, at a 500 status, at a throwing upstream call,
and at a failing time lookup. -/
theorem c8_health_check_witness :
    health_check (some 200) (.ok "T") = .ok (healthBody "connected" "T") ∧
    health_check (some 500) (.ok "T") = .ok (healthBody "error" "T") ∧
    health_check none (.ok "T") = .ok (healthBody "disconnected" "T") ∧
    runHandler (health_check (some 200) (.error "boom")) =
      ⟨500, .obj [("error", .str "Internal server error"),
                  ("details", .str "boom")]⟩ := by
  refine ⟨?_, ?_, ?_, ?_⟩
  · exact ((c8_health_check (some 200) (.ok "T")).1 "T" rfl).1 rfl
  · exact ((c8_health_check (some 500) (.ok "T")).1 "T" rfl).2.1 500 rfl (by decide)
  · exact ((c8_health_check none (.ok "T")).1 "T" rfl).2.2 rfl
  · exact ((c8_health_check (some 200) (.error "boom")).2 "boom" rfl).2

/-- C5: the summary-statistics endpoint always answers its caller with HTTP
status 200; whenever the computation raises (in particular whenever the
upstream call fails), the body is the degraded object with zero counts,
`top_product = "Error"` and the exception message in `error`. -/
theorem c5_stats_always_200 (outcome : UpstreamOutcome) (timeResult : Except String String) :
    (runHandler (get_summary_stats outcome timeResult)).status_code = 200 ∧
    (∀ msg, get_summary_stats_try outcome timeResult = .error msg →
      runHandler (get_summary_stats outcome timeResult) = ⟨200, degradedStats msg⟩) ∧
    (∀ e, (make_oracle_request "GET" ORACLE_URL outcome).1 = .error e →
      runHandler (get_summary_stats outcome timeResult) =
        ⟨200, degradedStats (strOfHTTPExc e)⟩) := by
  refine ⟨?_, ?_, ?_⟩
  · cases h : get_summary_stats_try outcome timeResult <;>
      simp [get_summary_stats, runHandler, h]
  · intro msg h
    simp [get_summary_stats, runHandler, h]
  · intro e h
    have htry : get_summary_stats_try outcome timeResult = .error (strOfHTTPExc e) := by
      simp [get_summary_stats_try, h, Bind.bind, Except.bind]
    simp [get_summary_stats, runHandler, htry]

/-- C5, witness: the theorem applied at a timed-out upstream call, whose
raised `HTTPException` stringifies to `504: Oracle database timeout`. -/
theorem c5_stats_always_200_witness :
    runHandler (get_summary_stats .timeout (.ok "T")) =
      ⟨200, degradedStats (strOfHTTPExc ⟨504, .str "Oracle database timeout"⟩)⟩ := by
  exact (c5_stats_always_200 .timeout (.ok "T")).2.2
    ⟨504, .str "Oracle database timeout"⟩ rfl

/-! ## Helper lemmas for the products dict and the summary statistics -/

theorem scalarEq_symm (a b : Json) : scalarEq a b = scalarEq b a := by
  cases a <;> cases b <;> simp [scalarEq, eq_comm]

theorem keyEq_symm (a b : Json) : keyEq a b = keyEq b a := by
  simp [keyEq, scalarEq_symm]

theorem scalarEq_trans {a b c : Json} (h₁ : scalarEq a b = true)
    (h₂ : scalarEq b c = true) : scalarEq a c = true := by
  cases a <;> cases b <;> cases c <;> simp_all [scalarEq]

theorem keyEq_trans {a b c : Json} (h₁ : keyEq a b = true)
    (h₂ : keyEq b c = true) : keyEq a c = true :=
  scalarEq_trans h₁ h₂

theorem keyEq_refl {p : Json} (h : hashable p = true) : keyEq p p = true := by
  cases p <;> simp_all [keyEq, canonKey, scalarEq, hashable]

theorem exists_first_split {α : Type _} (q : α → Bool) (l : List α)
    (h : l.any q = true) :
    ∃ l₁ a l₂, l = l₁ ++ a :: l₂ ∧ q a = true ∧ ∀ x ∈ l₁, q x = false := by
  induction l with
  | nil => simp at h
  | cons x xs ih =>
    cases hx : q x with
    | true => exact ⟨[], x, xs, rfl, hx, by simp⟩
    | false =>
      have hxs : xs.any q = true := by simpa [List.any_cons, hx] using h
      obtain ⟨l₁, a, l₂, heq, hqa, hl₁⟩ := ih hxs
      refine ⟨x :: l₁, a, l₂, by simp [heq], hqa, ?_⟩
      intro y hy
      rcases List.mem_cons.mp hy with rfl | hy
      · exact hx
      · exact hl₁ y hy

theorem dedupKeys_append_single (ps : List Json) (p : Json) :
    dedupKeys (ps ++ [p]) =
      if (dedupKeys ps).any (fun q => keyEq q p) then dedupKeys ps
      else dedupKeys ps ++ [p] := by
  simp [dedupKeys, List.foldl_append, dedupStep]

theorem countKey_append_single (ps : List Json) (p v : Json) :
    countKey (ps ++ [p]) v = countKey ps v + (if keyEq p v then 1 else 0) := by
  simp [countKey, List.countP_append, List.countP_cons]

theorem dedupKeys_pairwise_aux (ps : List Json) (acc : List Json)
    (hacc : acc.Pairwise (fun a b => keyEq a b = false)) :
    (ps.foldl dedupStep acc).Pairwise (fun a b => keyEq a b = false) := by
  induction ps generalizing acc with
  | nil => exact hacc
  | cons p ps ih =>
    simp only [List.foldl_cons]
    apply ih
    unfold dedupStep
    by_cases h : (acc.any fun q => keyEq q p) = true
    · simpa [h] using hacc
    · rw [if_neg (by simp [h])]
      refine List.pairwise_append.mpr ⟨hacc, List.pairwise_singleton _ _, ?_⟩
      intro a ha b hb
      rcases List.mem_singleton.mp hb with rfl
      by_contra hc
      exact h (List.any_eq_true.mpr ⟨a, ha, by simpa using hc⟩)

theorem dedupKeys_pairwise (ps : List Json) :
    (dedupKeys ps).Pairwise (fun a b => keyEq a b = false) :=
  dedupKeys_pairwise_aux ps [] (List.Pairwise.nil)

theorem mem_dedupKeys_cover (ps : List Json)
    (hhash : ∀ p ∈ ps, hashable p = true) :
    ∀ q ∈ ps, (dedupKeys ps).any (fun w => keyEq w q) = true := by
  induction ps using List.reverseRecOn with
  | nil => simp
  | append_singleton ps p ih =>
    have hps : ∀ x ∈ ps, hashable x = true :=
      fun x hx => hhash x (List.mem_append_left _ hx)
    have hp : hashable p = true := hhash p (by simp)
    intro q hq
    rw [dedupKeys_append_single]
    by_cases hany : ((dedupKeys ps).any fun w => keyEq w p) = true
    · rw [if_pos hany]
      rcases List.mem_append.mp hq with hq | hq
      · exact ih hps q hq
      · rcases List.mem_singleton.mp hq with rfl
        obtain ⟨w, hwmem, hw⟩ := List.any_eq_true.mp hany
        exact List.any_eq_true.mpr ⟨w, hwmem, hw⟩
    · rw [if_neg (by simp [hany])]
      rcases List.mem_append.mp hq with hq | hq
      · obtain ⟨w, hwmem, hw⟩ := List.any_eq_true.mp (ih hps q hq)
        exact List.any_eq_true.mpr ⟨w, List.mem_append_left _ hwmem, hw⟩
      · rcases List.mem_singleton.mp hq with rfl
        exact List.any_eq_true.mpr ⟨q, List.mem_append_right _ (by simp),
          by simpa using keyEq_refl hp⟩

theorem countKey_eq_zero_of_not_any (ps : List Json) (p : Json)
    (hhash : ∀ x ∈ ps, hashable x = true)
    (h : ((dedupKeys ps).any fun q => keyEq q p) = false) :
    countKey ps p = 0 := by
  rw [countKey, List.countP_eq_zero]
  intro q hq hqp
  obtain ⟨w, hwmem, hw⟩ := List.any_eq_true.mp (mem_dedupKeys_cover ps hhash q hq)
  have hwp : keyEq w p = true := keyEq_trans (by simpa using hw) (by simpa using hqp)
  have : ((dedupKeys ps).any fun q => keyEq q p) = true :=
    List.any_eq_true.mpr ⟨w, hwmem, by simpa using hwp⟩
  simp [this] at h

theorem bump_no_match (keys : List Json) (cnt : Json → Nat) (p : Json)
    (h : ∀ v ∈ keys, keyEq v p = false) :
    bump (keys.map fun v => (v, cnt v)) p =
      (keys.map fun v => (v, cnt v)) ++ [(p, 1)] := by
  induction keys with
  | nil => rfl
  | cons k ks ih =>
    simp only [List.map_cons, bump]
    rw [if_neg (by simp [h k (List.mem_cons_self k ks)])]
    rw [ih (fun v hv => h v (List.mem_cons_of_mem _ hv))]
    simp

theorem bump_match (keys₁ keys₂ : List Json) (v : Json) (cnt : Json → Nat)
    (p : Json)
    (h₁ : ∀ w ∈ keys₁, keyEq w p = false) (hv : keyEq v p = true) :
    bump ((keys₁ ++ v :: keys₂).map fun w => (w, cnt w)) p =
      (keys₁.map fun w => (w, cnt w)) ++
        (v, cnt v + 1) :: (keys₂.map fun w => (w, cnt w)) := by
  induction keys₁ with
  | nil => simp [bump, hv]
  | cons k ks ih =>
    simp only [List.cons_append, List.map_cons, bump]
    rw [if_neg (by simp [h₁ k (List.mem_cons_self k ks)])]
    simp only [List.append_eq]
    rw [ih (fun w hw => h₁ w (List.mem_cons_of_mem _ hw))]

theorem bumpFold_eq (ps : List Json) (hhash : ∀ p ∈ ps, hashable p = true) :
    ps.foldl bump [] = (dedupKeys ps).map (fun v => (v, countKey ps v)) := by
  induction ps using List.reverseRecOn with
  | nil => rfl
  | append_singleton ps p ih =>
    have hps : ∀ x ∈ ps, hashable x = true :=
      fun x hx => hhash x (List.mem_append_left _ hx)
    have hp : hashable p = true := hhash p (by simp)
    rw [List.foldl_append, List.foldl_cons, List.foldl_nil, ih hps,
      dedupKeys_append_single]
    by_cases hany : ((dedupKeys ps).any fun q => keyEq q p) = true
    · rw [if_pos hany]
      obtain ⟨l₁, v, l₂, hsplit, hqv, hl₁⟩ := exists_first_split _ _ hany
      have hpw : ∀ w ∈ l₂, keyEq p w = false := by
        intro w hw
        have hvw : keyEq v w = false := by
          have hpair := dedupKeys_pairwise ps
          rw [hsplit] at hpair
          exact (List.pairwise_cons.mp (List.pairwise_append.mp hpair).2.1).1 w hw
        by_contra hc
        have hc' : keyEq p w = true := by simpa using hc
        exact absurd (keyEq_trans hqv hc') (by simp [hvw])
      rw [hsplit, bump_match l₁ l₂ v (countKey ps) p hl₁ hqv]
      rw [List.map_append, List.map_cons]
      congr 1
      · refine List.map_congr_left ?_
        intro w hw
        have : keyEq p w = false := by
          rw [keyEq_symm]; exact hl₁ w hw
        simp [countKey_append_single, this]
      · congr 1
        · have : keyEq p v = true := by rw [keyEq_symm]; exact hqv
          simp [countKey_append_single, this]
        · refine List.map_congr_left ?_
          intro w hw
          simp [countKey_append_single, hpw w hw]
    · rw [if_neg (by simp [hany])]
      have hnone : ∀ v ∈ dedupKeys ps, keyEq v p = false := by
        intro v hv
        by_contra hc
        exact hany (List.any_eq_true.mpr ⟨v, hv, by simpa using hc⟩)
      rw [bump_no_match _ (countKey ps) p hnone, List.map_append, List.map_singleton]
      congr 1
      · refine List.map_congr_left ?_
        intro w hw
        have : keyEq p w = false := by rw [keyEq_symm]; exact hnone w hw
        simp [countKey_append_single, this]
      · have h0 : countKey ps p = 0 :=
          countKey_eq_zero_of_not_any ps p hps (by simp [hany])
        simp [countKey_append_single, keyEq_refl hp, h0]

theorem le_sndMax (xs : List (Json × Nat)) (m : Nat) : m ≤ sndMax xs m := by
  induction xs generalizing m with
  | nil => exact le_refl m
  | cons y ys ih => exact le_trans (Nat.le_max_left m y.2) (ih (max m y.2))

theorem maxStep_snd (x y : Json × Nat) : (maxStep x y).2 = max x.2 y.2 := by
  unfold maxStep
  by_cases h : x.2 < y.2
  · simp [h, Nat.max_eq_right (Nat.le_of_lt h)]
  · simp [h, Nat.max_eq_left (Nat.not_lt.mp h)]

theorem foldl_maxStep_find (xs : List (Json × Nat)) (x : Json × Nat) :
    (x :: xs).find? (fun y => y.2 == sndMax xs x.2) = some (xs.foldl maxStep x) := by
  induction xs generalizing x with
  | nil => simp [sndMax, List.find?]
  | cons y ys ih =>
    have hM : sndMax (y :: ys) x.2 = sndMax ys (maxStep x y).2 := by
      simp [sndMax, List.foldl_cons, maxStep_snd]
    have hxle : x.2 ≤ sndMax (y :: ys) x.2 := le_sndMax _ _
    have hyle : y.2 ≤ sndMax (y :: ys) x.2 := by
      rw [hM, maxStep_snd]
      exact le_trans (Nat.le_max_right x.2 y.2) (le_sndMax ys _)
    by_cases hxM : x.2 = sndMax (y :: ys) x.2
    · rw [List.find?_cons_of_pos _ (by simp [← hxM])]
      have hy : y.2 ≤ x.2 := by rw [hxM]; exact hyle
      have hstep : maxStep x y = x := by
        unfold maxStep
        rw [if_neg (Nat.not_lt.mpr hy)]
      rw [List.foldl_cons, hstep]
      have hM2 : sndMax ys x.2 = sndMax (y :: ys) x.2 := by rw [hM, hstep]
      have ihx := ih x
      simp only [hM2] at ihx
      rw [List.find?_cons_of_pos _ (by simp [← hxM])] at ihx
      exact ihx
    · rw [List.find?_cons_of_neg _ (by simp [hxM])]
      rw [List.foldl_cons]
      by_cases hxy : x.2 < y.2
      · have hstep : maxStep x y = y := by
          unfold maxStep
          rw [if_pos hxy]
        rw [hstep]
        have hM2 : sndMax ys y.2 = sndMax (y :: ys) x.2 := by rw [hM, hstep]
        have ihy := ih y
        simp only [hM2] at ihy
        exact ihy
      · have hstep : maxStep x y = x := by
          unfold maxStep
          rw [if_neg hxy]
        rw [hstep]
        have hM2 : sndMax ys x.2 = sndMax (y :: ys) x.2 := by rw [hM, hstep]
        have ihx := ih x
        simp only [hM2] at ihx
        rw [List.find?_cons_of_neg _ (by simp [hxM])] at ihx
        have hyM : y.2 ≠ sndMax (y :: ys) x.2 := by
          intro hc
          have hy : y.2 ≤ x.2 := Nat.not_lt.mp hxy
          have hle : sndMax (y :: ys) x.2 ≤ x.2 := hc ▸ hy
          exact hxM (Nat.le_antisymm hxle hle)
        rw [List.find?_cons_of_neg _ (by simp [hyM])]
        exact ihx

theorem top_product_of_map (keys : List Json) (cnt : Json → Nat) :
    top_product_of (keys.map fun v => (v, cnt v)) =
      (match keys.find? (fun v => cnt v == (keys.map cnt).foldl max 0) with
       | some v => v
       | none => Json.str "None") := by
  cases keys with
  | nil => rfl
  | cons k kt =>
    have hMeq : sndMax (kt.map fun v => (v, cnt v)) (cnt k) =
        ((k :: kt).map cnt).foldl max 0 := by
      simp [sndMax, List.foldl_map, List.map_cons, List.foldl_cons, Nat.zero_max]
    have hfind := foldl_maxStep_find (kt.map fun v => (v, cnt v)) (k, cnt k)
    simp only [hMeq] at hfind
    have hfind2 : (((k :: kt).map fun v => (v, cnt v)).find?
        fun y => y.2 == ((k :: kt).map cnt).foldl max 0) =
        some ((kt.map fun v => (v, cnt v)).foldl maxStep (k, cnt k)) := by
      simpa [List.map_cons] using hfind
    rw [List.find?_map] at hfind2
    obtain ⟨v, hv, hfv⟩ := Option.map_eq_some'.mp hfind2
    have hv' : ((k :: kt).find? fun w => cnt w == ((k :: kt).map cnt).foldl max 0) =
        some v := by
      simpa [Function.comp] using hv
    rw [hv']
    have h1 : top_product_of ((k :: kt).map fun v => (v, cnt v)) =
        ((kt.map fun v => (v, cnt v)).foldl maxStep (k, cnt k)).1 := rfl
    rw [h1, ← hfv]

theorem specTopOf_eq (ps : List Json) (hhash : ∀ p ∈ ps, hashable p = true) :
    top_product_of (ps.foldl bump []) = specTopOf ps := by
  rw [bumpFold_eq ps hhash, top_product_of_map]
  rfl

theorem buildProducts_ok_aux (items : List Json) (acc : List (Json × Nat))
    (hobj : ∀ r ∈ items, isObj r = true) (hok : ∀ r ∈ items, productOK r = true) :
    items.foldlM productStep acc = Except.ok ((truthyProducts items).foldl bump acc) := by
  induction items generalizing acc with
  | nil => rfl
  | cons r rest ih =>
    have hrest_obj : ∀ x ∈ rest, isObj x = true :=
      fun x hx => hobj x (List.mem_cons_of_mem _ hx)
    have hrest_ok : ∀ x ∈ rest, productOK x = true :=
      fun x hx => hok x (List.mem_cons_of_mem _ hx)
    have hrobj : isObj r = true := hobj r (List.mem_cons_self r rest)
    cases r with
    | null => simp [isObj] at hrobj
    | bool b => simp [isObj] at hrobj
    | num q => simp [isObj] at hrobj
    | str s => simp [isObj] at hrobj
    | arr elems => simp [isObj] at hrobj
    | obj fields =>
      rw [List.foldlM_cons]
      cases hlk : lookupField fields "product_name" with
      | none =>
        have hstep : productStep acc (Json.obj fields) = Except.ok acc := by
          simp [productStep, dictGetD, hlk, truthy, Bind.bind, Except.bind]
        rw [hstep]
        have htp : truthyProducts (Json.obj fields :: rest) = truthyProducts rest := by
          simp [truthyProducts, List.filterMap_cons, productOf, hlk]
        simpa [Bind.bind, Except.bind, htp] using ih acc hrest_obj hrest_ok
      | some p =>
        cases htr : truthy p with
        | false =>
          have hstep : productStep acc (Json.obj fields) = Except.ok acc := by
            simp [productStep, dictGetD, hlk, htr, Bind.bind, Except.bind]
          rw [hstep]
          have htp : truthyProducts (Json.obj fields :: rest) = truthyProducts rest := by
            simp [truthyProducts, List.filterMap_cons, productOf, hlk, htr]
          simpa [Bind.bind, Except.bind, htp] using ih acc hrest_obj hrest_ok
        | true =>
          have hhashp : hashable p = true := by
            have hpr := hok (Json.obj fields) (List.mem_cons_self _ rest)
            simp [productOK, productOf, hlk, htr] at hpr
            exact hpr
          have hstep : productStep acc (Json.obj fields) =
              Except.ok (bump acc p) := by
            simp [productStep, dictGetD, hlk, htr, hhashp, Bind.bind, Except.bind]
          rw [hstep]
          have htp : truthyProducts (Json.obj fields :: rest) =
              p :: truthyProducts rest := by
            simp [truthyProducts, List.filterMap_cons, productOf, hlk, htr]
          simpa [Bind.bind, Except.bind, htp, List.foldl_cons] using ih (bump acc p) hrest_obj hrest_ok

theorem truthyProducts_hashable (items : List Json)
    (hok : ∀ r ∈ items, productOK r = true) :
    ∀ p ∈ truthyProducts items, hashable p = true := by
  intro p hp
  obtain ⟨r, hr, hf⟩ := List.mem_filterMap.mp hp
  cases hpd : productOf r with
  | none => simp [hpd] at hf
  | some q =>
    rw [hpd] at hf
    cases htr : truthy q with
    | false => simp [htr] at hf
    | true =>
      have hqp : q = p := by simpa [htr] using hf
      subst hqp
      have hpr := hok r hr
      simp [productOK, hpd, htr] at hpr
      exact hpr

/-- C7: for every list of items (each a dict, with any truthy product name
hashable), the products loop succeeds and its `top_product` equals the
spec-side characterization: the `product_name` value with the highest
occurrence count among items having a non-empty (truthy) `product_name`,
ties broken in favour of the value whose first occurrence in the items list
comes first; and when no item has a non-empty product name, the literal
string `"None"`. -/
theorem c7_top_product (items : List Json)
    (hobj : items.all isObj = true) (hok : items.all productOK = true) :
    ∃ ps, buildProducts items = Except.ok ps ∧
      top_product_of ps = specTopProduct items ∧
      (truthyProducts items = [] → top_product_of ps = Json.str "None") := by
  have hobj' : ∀ r ∈ items, isObj r = true := by
    simpa using List.all_eq_true.mp hobj
  have hok' : ∀ r ∈ items, productOK r = true := by
    simpa using List.all_eq_true.mp hok
  refine ⟨(truthyProducts items).foldl bump [], ?_, ?_, ?_⟩
  · exact buildProducts_ok_aux items [] hobj' hok'
  · exact specTopOf_eq _ (truthyProducts_hashable items hok')
  · intro h
    rw [h]
    rfl

/-- C7, witness: the theorem applied at the specification example items,
where `A` occurs twice and `B` once, so the top product is `A`. -/
theorem c7_top_product_witness :
    ∃ ps, buildProducts specExampleItems = Except.ok ps ∧
      top_product_of ps = specTopProduct specExampleItems ∧
      (truthyProducts specExampleItems = [] →
        top_product_of ps = Json.str "None") := by
  exact c7_top_product specExampleItems (by decide) (by decide)

theorem statusOf_getD (r : Json) :
    isPending ((statusOf r).getD Json.null) = claimIsPendingItem r := by
  cases r with
  | obj fields =>
    cases h : lookupField fields "status" with
    | none => simp [statusOf, claimIsPendingItem, h, isPending]
    | some v => cases v <;> simp [statusOf, claimIsPendingItem, h, isPending]
  | null => rfl
  | bool b => rfl
  | num q => rfl
  | str s => rfl
  | arr elems => rfl

theorem mapM_itemStatus (items : List Json)
    (hobj : ∀ r ∈ items, isObj r = true) :
    items.mapM itemStatus =
      Except.ok (items.map fun r => (statusOf r).getD Json.null) := by
  induction items with
  | nil => rfl
  | cons r rest ih =>
    have hrobj := hobj r (List.mem_cons_self r rest)
    rw [List.mapM_cons, ih (fun x hx => hobj x (List.mem_cons_of_mem _ hx))]
    cases r with
    | obj fields =>
      simp [itemStatus, dictGetD, Bind.bind, Except.bind, statusOf, pure, Except.pure]
    | null => simp [isObj] at hrobj
    | bool b => simp [isObj] at hrobj
    | num q => simp [isObj] at hrobj
    | str s => simp [isObj] at hrobj
    | arr elems => simp [isObj] at hrobj

theorem mapM_itemAmount (items : List Json) :
    ∀ qs, items.mapM amountOf = some qs →
      items.mapM itemAmount = Except.ok qs := by
  induction items with
  | nil =>
    intro qs h
    simp only [List.mapM_nil] at h
    cases h
    rfl
  | cons r rest ih =>
    intro qs h
    rw [List.mapM_cons] at h ⊢
    cases ha : amountOf r with
    | none => rw [ha] at h; simp [Bind.bind, Option.bind] at h
    | some q =>
      rw [ha] at h
      cases hr : rest.mapM amountOf with
      | none => rw [hr] at h; simp [Bind.bind, Option.bind] at h
      | some qs' =>
        rw [hr] at h
        simp only [Bind.bind, Option.bind, pure] at h
        cases h
        have hitem : itemAmount r = Except.ok q := by
          cases r with
          | obj fields =>
            simp only [amountOf] at ha
            simp [itemAmount, dictGetD, Bind.bind, Except.bind, ha]
          | null => simp [amountOf] at ha
          | bool b => simp [amountOf] at ha
          | num x => simp [amountOf] at ha
          | str s => simp [amountOf] at ha
          | arr elems => simp [amountOf] at ha
        rw [hitem, ih qs' hr]
        simp [Bind.bind, Except.bind, pure, Except.pure]

theorem pending_filter_count (items : List Json) :
    ((items.map fun r => (statusOf r).getD Json.null).filter isPending).length =
      claimPending items := by
  rw [← List.countP_eq_length_filter, List.countP_map, claimPending]
  have hfun : (isPending ∘ fun r => (statusOf r).getD Json.null) = claimIsPendingItem := by
    funext r
    exact statusOf_getD r
  rw [hfun]

theorem stats_try_eval (items : List Json) (t : String) (h : statsWF items = true) :
    ∃ qs, items.mapM amountOf = some qs ∧
      get_summary_stats_try
          (.response 200 (some (.obj [("items", .arr items)]))) (.ok t) =
        .ok (.obj [
          ("total_records", .num (items.length : ℚ)),
          ("pending_orders", .num (claimPending items : ℚ)),
          ("total_revenue", .num (qs.foldl (· + ·) 0)),
          ("top_product", top_product_of ((truthyProducts items).foldl bump [])),
          ("last_updated", .str t)]) := by
  have h1 := h
  simp only [statsWF, Bool.and_eq_true] at h1
  obtain ⟨⟨hobj, hsome⟩, hok⟩ := h1
  obtain ⟨qs, hqs⟩ := Option.isSome_iff_exists.mp hsome
  refine ⟨qs, hqs, ?_⟩
  have hobj' : ∀ r ∈ items, isObj r = true := by
    simpa using List.all_eq_true.mp hobj
  have hok' : ∀ r ∈ items, productOK r = true := by
    simpa using List.all_eq_true.mp hok
  have hm : (make_oracle_request "GET" ORACLE_URL
      (.response 200 (some (Json.obj [("items", Json.arr items)])))).1 =
      .ok (Json.obj [("items", Json.arr items)]) := rfl
  have hd : dictGetD (Json.obj [("items", Json.arr items)]) "items" (Json.arr []) =
      .ok (.arr items) := rfl
  have hbp : buildProducts items =
      Except.ok ((truthyProducts items).foldl bump []) :=
    buildProducts_ok_aux items [] hobj' hok'
  simp only [get_summary_stats_try, hm, hd, mapM_itemStatus items hobj',
    mapM_itemAmount items qs hqs, hbp, Bind.bind, Except.bind]
  rw [pending_filter_count]

/-- C6: for every well-formed list of items (each a dict, amounts coercible,
truthy product names hashable), the summary statistics satisfy the claimed
formulas: `total_records` is the length of the list, `pending_orders` counts
the items whose `status` equals `"Pending"` (missing statuses excluded),
`total_revenue` is the sum of the coerced `total_amount` values; a dict
without an `items` key behaves exactly like an empty items list; and on the
two concrete inputs of the claim the full responses are as stated, with
HTTP status 200. -/
theorem c6_stats_formulas (items : List Json) (t : String)
    (h : statsWF items = true) :
    (∃ q, claimRevenue items = some q ∧
      runHandler (get_summary_stats
          (.response 200 (some (.obj [("items", .arr items)]))) (.ok t)) =
        ⟨200, .obj [
          ("total_records", .num (items.length : ℚ)),
          ("pending_orders", .num (claimPending items : ℚ)),
          ("total_revenue", .num q),
          ("top_product", top_product_of ((truthyProducts items).foldl bump [])),
          ("last_updated", .str t)]⟩) ∧
    runHandler (get_summary_stats (.response 200 (some (.obj []))) (.ok t)) =
      runHandler (get_summary_stats
        (.response 200 (some (.obj [("items", .arr ([] : List Json))]))) (.ok t)) ∧
    runHandler (get_summary_stats
        (.response 200 (some (.obj [("items", .arr specExampleItems)]))) (.ok t)) =
      ⟨200, .obj [
        ("total_records", .num 3), ("pending_orders", .num 1),
        ("total_revenue", .num 15.5), ("top_product", .str "A"),
        ("last_updated", .str t)]⟩ ∧
    runHandler (get_summary_stats
        (.response 200 (some (.obj [("items", .arr ([] : List Json))]))) (.ok t)) =
      ⟨200, .obj [
        ("total_records", .num 0), ("pending_orders", .num 0),
        ("total_revenue", .num 0), ("top_product", .str "None"),
        ("last_updated", .str t)]⟩ := by
  refine ⟨?_, rfl, rfl, rfl⟩
  obtain ⟨qs, hqs, htry⟩ := stats_try_eval items t h
  refine ⟨qs.foldl (· + ·) 0, ?_, ?_⟩
  · rw [claimRevenue, hqs]
    rfl
  · simp [get_summary_stats, htry, runHandler]

/-- C6, witness: the theorem applied at the specification example items,
yielding total 3, pending 1, revenue 15.5 and top product `A`. -/
theorem c6_stats_formulas_witness :
    runHandler (get_summary_stats
        (.response 200 (some (.obj [("items", .arr specExampleItems)]))) (.ok "T")) =
      ⟨200, .obj [
        ("total_records", .num 3), ("pending_orders", .num 1),
        ("total_revenue", .num 15.5), ("top_product", .str "A"),
        ("last_updated", .str "T")]⟩ :=
  (c6_stats_formulas specExampleItems "T" (by decide)).2.2.1

end OracleProxy
